import Mathlib

/-!
Shallow embedding of `github_daily.py` (class `GitHubDailyReporter`).

Conventions of the embedding:
* JSON objects read by the code are modelled as structures whose fields are
  `Option`-valued: `none` models an absent key, so that a `dict[key]` access
  becomes an `Except`-valued lookup raising `PyErr.keyError` when absent.
* Machine-level aspects (HTTP transport, the OpenAI client, the Discord POST)
  are modelled as oracles: the response a remote service would give is passed
  in as an argument, and the claims are quantified over all possible responses.
* Strings are modelled via their character sequences; comparisons are by code
  point, as in Python.
-/

namespace GithubDaily

/-- Python exceptions that the script raises or catches. -/
inductive PyErr where
  | keyError
  | valueError
  | exception : String → PyErr
deriving DecidableEq

/-- `d[k]` on a possibly-absent field: raises `KeyError` when the key is absent. -/
def dictGet {α : Type} : Option α → Except PyErr α
  | some v => Except.ok v
  | none => Except.error PyErr.keyError

/-- One element of `event["payload"]["commits"]`. -/
structure Commit where
  message : Option String
deriving DecidableEq

/-- `event["payload"]["pull_request"]`. -/
structure PullRequestData where
  title : Option String
deriving DecidableEq

/-- `event["payload"]`, holding every sub-field any branch of the script reads. -/
structure Payload where
  commits : Option (List Commit)
  ref : Option String
  ref_type : Option String
  action : Option String
  pull_request : Option PullRequestData
deriving DecidableEq

/-- `event["repo"]`. -/
structure RepoInfo where
  name : Option String
deriving DecidableEq

/-- A raw GitHub event as the script reads it from the events API response. -/
structure RawEvent where
  type : Option String
  repo : Option RepoInfo
  created_at : Option String
  payload : Option Payload
  public : Option Bool
deriving DecidableEq

/-- A JSON-like value stored in the normalized `event_info` dict. -/
inductive Value where
  | str : String → Value
  | nat : Nat → Value
  | bool : Bool → Value
  | strList : List String → Value
deriving DecidableEq

/-- The normalized `event_info` dict, as an association list in insertion order
(Python dicts preserve insertion order). -/
abbrev Record := List (String × Value)

/-! ## `datetime.strptime(s, "%Y-%m-%dT%H:%M:%SZ")`

CPython's `_strptime` compiles the format into a regex (with `re.IGNORECASE`):
`%Y` is exactly four digits; `%m` is `1[0-2]|0[1-9]|[1-9]`; `%d` is
`3[01]|[12]\d|0[1-9]|[1-9]`; `%H` is `2[0-3]|[0-1]\d|\d`; `%M` is `[0-5]\d|\d`;
`%S` is `6[0-1]|[0-5]\d|\d`; the whole string must match.  The `datetime`
constructor then rejects year 0, a day out of range for the month, and a
second above 59.  Every numeric field here is followed by a literal
(`-`, `T`, `:`, `Z`), so the regex never backtracks from a two-digit match to a
one-digit one: two adjacent digits must form a valid two-digit value. -/

/-- The result of a successful parse, plus the `microsecond` component that
`datetime.now()` carries (a parsed event date always has microsecond 0). -/
structure PyDateTime where
  year : Nat
  month : Nat
  day : Nat
  hour : Nat
  minute : Nat
  second : Nat
  microsecond : Nat
deriving DecidableEq

/-- Python `datetime` comparison: lexicographic on the components. -/
def PyDateTime.ble (a b : PyDateTime) : Bool :=
  if a.year ≠ b.year then decide (a.year < b.year)
  else if a.month ≠ b.month then decide (a.month < b.month)
  else if a.day ≠ b.day then decide (a.day < b.day)
  else if a.hour ≠ b.hour then decide (a.hour < b.hour)
  else if a.minute ≠ b.minute then decide (a.minute < b.minute)
  else if a.second ≠ b.second then decide (a.second < b.second)
  else decide (a.microsecond ≤ b.microsecond)

/-- One numeric field of the compiled strptime regex: two adjacent digits must
form a value in `[twoLo, twoHi]`; a single digit (followed by a non-digit or
the end) must lie in `[oneLo, oneHi]`. -/
def parseNumField (twoLo twoHi oneLo oneHi : Nat) :
    List Char → Option (Nat × List Char)
  | [] => none
  | c1 :: rest =>
    if c1.isDigit then
      let d1 := c1.toNat - 48
      match rest with
      | c2 :: rest2 =>
        if c2.isDigit then
          let v := d1 * 10 + (c2.toNat - 48)
          if twoLo ≤ v ∧ v ≤ twoHi then some (v, rest2) else none
        else if oneLo ≤ d1 ∧ d1 ≤ oneHi then some (d1, rest) else none
      | [] => if oneLo ≤ d1 ∧ d1 ≤ oneHi then some (d1, []) else none
    else none

/-- `%Y`: exactly four digits. -/
def parse4Digits : List Char → Option (Nat × List Char)
  | a :: b :: c :: d :: rest =>
    if a.isDigit ∧ b.isDigit ∧ c.isDigit ∧ d.isDigit then
      some ((a.toNat - 48) * 1000 + (b.toNat - 48) * 100 +
            (c.toNat - 48) * 10 + (d.toNat - 48), rest)
    else none
  | _ => none

/-- A literal character of the format; `_strptime` compiles with `re.IGNORECASE`,
so `T` also matches `t` and `Z` also matches `z`. -/
def parseLit (lit : Char) : List Char → Option (List Char)
  | [] => none
  | c :: rest => if c.toLower = lit.toLower then some rest else none

def isLeapYear (y : Nat) : Bool :=
  y % 4 = 0 && (y % 100 ≠ 0 || y % 400 = 0)

def daysInMonth (y m : Nat) : Nat :=
  if m = 2 then (if isLeapYear y then 29 else 28)
  else if m = 4 ∨ m = 6 ∨ m = 9 ∨ m = 11 then 30
  else 31

/-- `datetime.strptime(s, "%Y-%m-%dT%H:%M:%SZ")`, returning `none` where Python
raises `ValueError` (regex mismatch, year 0, day out of range for the month,
or second above 59). -/
def strptimeEventDate (s : String) : Option PyDateTime := do
  let cs0 := s.toList
  let (y, cs1) ← parse4Digits cs0
  let cs2 ← parseLit '-' cs1
  let (mo, cs3) ← parseNumField 1 12 1 9 cs2
  let cs4 ← parseLit '-' cs3
  let (d, cs5) ← parseNumField 1 31 1 9 cs4
  let cs6 ← parseLit 'T' cs5
  let (h, cs7) ← parseNumField 0 23 0 9 cs6
  let cs8 ← parseLit ':' cs7
  let (mi, cs9) ← parseNumField 0 59 0 9 cs8
  let cs10 ← parseLit ':' cs9
  let (sec, cs11) ← parseNumField 0 61 0 9 cs10
  let cs12 ← parseLit 'Z' cs11
  if cs12 ≠ [] then none
  else if y < 1 then none
  else if d > daysInMonth y mo then none
  else if sec > 59 then none
  else some ⟨y, mo, d, h, mi, sec, 0⟩

/-! ## Python string comparison

Python compares strings lexicographically by code point.  `charsLe` is `≤` on
character sequences in that order. -/

def charsLe : List Char → List Char → Bool
  | [], _ => true
  | _ :: _, [] => false
  | a :: as, b :: bs =>
    if a.toNat < b.toNat then true
    else if b.toNat < a.toNat then false
    else charsLe as bs

/-- Python `s <= t` on strings. -/
def pyStrLe (s t : String) : Bool := charsLe s.toList t.toList

/-! ## `get_github_events` (the Filter)

The loop body (lines 51–68 of the source) runs inside a `try` that catches
`KeyError` and `ValueError` and `continue`s.  The `recent_events.append` is an
in-place mutation that precedes the repo-name lookup, so an exception raised by
`event["repo"]["name"]` only skips the public/private bookkeeping: the event
stays appended.  The state passing below reproduces that order exactly. -/

structure FilterState where
  recent_events : List RawEvent
  public_repos : Finset String
  private_repos : Finset String

/-- One iteration of the loop in `get_github_events`. -/
def processEvent (yesterday : PyDateTime) (st : FilterState) (event : RawEvent) :
    FilterState :=
  match event.created_at with
  | none => st            -- KeyError on event["created_at"], caught
  | some ca =>
    match strptimeEventDate ca with
    | none => st          -- ValueError from strptime, caught
    | some event_date =>
      if yesterday.ble event_date then
        -- recent_events.append(event) happens first
        let st1 := { st with recent_events := st.recent_events ++ [event] }
        match event.repo with
        | none => st1     -- KeyError on event["repo"], caught after the append
        | some r =>
          match r.name with
          | none => st1   -- KeyError on ["name"], caught after the append
          | some repo_name =>
            let is_public := event.public.getD true
            if is_public then
              { st1 with public_repos := insert repo_name st1.public_repos }
            else
              { st1 with private_repos := insert repo_name st1.private_repos }
      else st

/-- `lambda x: x["created_at"]`, the sort key.  Every event retained by the
loop has a present `created_at` (it was parsed), so the default never fires. -/
def eventSortKey (e : RawEvent) : String := e.created_at.getD ""

/-- The descending comparator induced by `sort(key=..., reverse=True)`:
`a` may come before `b` exactly when `key a ≥ key b` (string comparison). -/
def sortDescLe (a b : RawEvent) : Bool := pyStrLe (eventSortKey b) (eventSortKey a)

/-- Stable insertion of `x` into an already descending-sorted list: `x` goes
before the first element it is `≥`-related to, so among equal keys the earlier
input element stays first. -/
def insertDesc (x : RawEvent) : List RawEvent → List RawEvent
  | [] => [x]
  | y :: ys => if sortDescLe x y then x :: y :: ys else y :: insertDesc x ys

/-- `recent_events.sort(key=lambda x: x["created_at"], reverse=True)`.
Python's `list.sort` is stable, and `reverse=True` gives the descending order
with ties kept in input order; a stable sort's output is uniquely determined
by the comparator, so this stable insertion sort computes the same list. -/
def pySortByCreatedAtDesc : List RawEvent → List RawEvent
  | [] => []
  | x :: xs => insertDesc x (pySortByCreatedAtDesc xs)

/-- Lines 46–75 of `get_github_events`: the filtering loop over the decoded
response body followed by the descending sort.  `yesterday` stands for
`datetime.now() - timedelta(hours=24)`. -/
def get_github_events_filter (yesterday : PyDateTime)
    (all_events : List RawEvent) : List RawEvent :=
  let st := all_events.foldl (processEvent yesterday) ⟨[], ∅, ∅⟩
  pySortByCreatedAtDesc st.recent_events

/-- The whole of `get_github_events`, with the HTTP exchange as an oracle:
`fetch` is either the exception raised by `requests.get`/`raise_for_status`
or the response status code together with the decoded JSON body. -/
def get_github_events (fetch : Except PyErr (Nat × List RawEvent))
    (yesterday : PyDateTime) : Except PyErr (List RawEvent) :=
  match fetch with
  | Except.error e => Except.error e
  | Except.ok (status, all_events) =>
    if status ≠ 200 then Except.ok []
    else Except.ok (get_github_events_filter yesterday all_events)

/-! ## `format_events` (the Formatter) -/

/-- `event["payload"]["ref"].replace("refs/heads/", "")`, specialised to the
constant pattern of the call site: scan left to right and delete every
(leftmost, non-overlapping) occurrence of `refs/heads/`.  The fuel argument is
the length of the scanned list, an upper bound on the number of steps. -/
def stripRefsHeadsAux : Nat → List Char → List Char
  | 0, s => s
  | _ + 1, [] => []
  | fuel + 1, c :: rest =>
    if ("refs/heads/".toList).isPrefixOf (c :: rest) then
      stripRefsHeadsAux fuel ((c :: rest).drop 11)
    else c :: stripRefsHeadsAux fuel rest

/-- Python `ref.replace("refs/heads/", "")`. -/
def pyReplaceRefsHeads (s : String) : String :=
  ⟨stripRefsHeadsAux s.toList.length s.toList⟩

/-- The list comprehension
`[commit["message"] for commit in event["payload"]["commits"]]`: each
subscript can raise `KeyError`; the first missing message aborts it. -/
def commitMessages : List Commit → Except PyErr (List String)
  | [] => Except.ok []
  | c :: cs => do
    let m ← dictGet c.message
    let ms ← commitMessages cs
    pure (m :: ms)

/-- Lines 81–114: one iteration of the formatting loop, producing the
`event_info` dict.  Each `event[...]` subscript can raise `KeyError`; nothing
here is caught, so the first missing key propagates. -/
def format_event (event : RawEvent) : Except PyErr Record := do
  let t ← dictGet event.type
  let r ← dictGet event.repo
  let repoName ← dictGet r.name
  let ca ← dictGet event.created_at
  let isPrivate := event.public.getD true = false
  let base : Record :=
    [("type", Value.str t), ("repo", Value.str repoName),
     ("created_at", Value.str ca), ("is_private", Value.bool isPrivate)]
  if t = "PushEvent" then
    let payload ← dictGet event.payload
    let commits ← dictGet payload.commits
    let base1 := base ++ [("commits", Value.nat commits.length)]
    let ref ← dictGet payload.ref
    let base2 := base1 ++ [("branch", Value.str (pyReplaceRefsHeads ref))]
    if commits.isEmpty then
      return base2
    else
      let msgs ← commitMessages commits
      return base2 ++ [("commit_messages", Value.strList msgs)]
  else if t = "CreateEvent" then
    let payload ← dictGet event.payload
    let refType ← dictGet payload.ref_type
    let base1 := base ++ [("ref_type", Value.str refType)]
    match payload.ref with   -- `if "ref" in event["payload"]`
    | some ref => return base1 ++ [("ref", Value.str ref)]
    | none => return base1
  else if t = "IssuesEvent" then
    let payload ← dictGet event.payload
    let action ← dictGet payload.action
    return base ++ [("action", Value.str action)]
  else if t = "PullRequestEvent" then
    let payload ← dictGet event.payload
    let action ← dictGet payload.action
    let pr ← dictGet payload.pull_request
    let title ← dictGet pr.title
    return base ++ [("action", Value.str action), ("pr_title", Value.str title)]
  else if t = "DeleteEvent" then
    let payload ← dictGet event.payload
    let refType ← dictGet payload.ref_type
    let ref ← dictGet payload.ref
    return base ++ [("ref_type", Value.str refType), ("ref", Value.str ref)]
  else
    return base

/-- Lines 77–116: `format_events`, the loop over all events; the first
uncaught exception aborts the whole call. -/
def format_events (events : List RawEvent) : Except PyErr (List Record) :=
  events.mapM format_event

/-! ## `generate_daily_message` (the Composer) -/

/-- ASCII whitespace stripped by `str.strip()`. -/
def pyIsSpace (c : Char) : Bool :=
  c = ' ' ∨ c = '\t' ∨ c = '\n' ∨ c = '\r' ∨ c = '\x0b' ∨ c = '\x0c'

/-- Python `s.strip()` (on ASCII whitespace). -/
def pyStrip (s : String) : String :=
  ⟨(s.toList.dropWhile pyIsSpace).reverse.dropWhile pyIsSpace |>.reverse⟩

def quietDayMessage : String :=
  "Hoje foi um dia de planejamento e reflexão no código."

/-- The deterministic fallback built in the `except` branch:
`f"Trabalhando em projetos interessantes hoje! {len(events)} atividades no GitHub"`. -/
def fallbackMessage (n : Nat) : String :=
  "Trabalhando em projetos interessantes hoje! " ++ toString n ++
    " atividades no GitHub"

/-- The OpenAI chat-completions call, as an oracle: `some content` is a reply
whose message content is a string, `none` is any failure inside the `try`
(transport error, auth failure, rate limit, or a `None` content making
`.strip()` raise). -/
def openaiCall (llm : Option String) : Except PyErr String :=
  match llm with
  | some content => Except.ok content
  | none => Except.error (PyErr.exception "OpenAI")

/-- Lines 118–163: `generate_daily_message`.  Returns the produced string
together with the number of generation-service calls performed (0 or 1).
The `try/except Exception` around the call makes the function total: a failing
call is converted to `fallbackMessage`. -/
def generate_daily_message (events : List Record) (llm : Option String) :
    String × Nat :=
  if events.isEmpty then (quietDayMessage, 0)
  else
    match openaiCall llm with
    | Except.ok content => (pyStrip content, 1)
    | Except.error _ => (fallbackMessage events.length, 1)

/-! ## `send_to_discord` (the Notifier) -/

/-- The embed dict built by `send_to_discord` (the POST body is
`{"embeds": [embed]}`); `nowIso` stands for `datetime.now().isoformat()`. -/
structure DiscordEmbed where
  title : String
  description : String
  color : Nat
  timestamp : String
  footer_text : String
deriving DecidableEq

def discordEmbedOf (message nowIso : String) : DiscordEmbed :=
  ⟨"📅 GitHub Daily", message, 0x7289DA, nowIso, "GitHub Daily Reporter"⟩

/-- `HTTPStatus.NO_CONTENT`. -/
def NO_CONTENT : Nat := 204

/-- Lines 165–184: `send_to_discord`.  The webhook's response status is the
oracle `status`; the embed construction (`discordEmbedOf message nowIso`, with
`nowIso` the wall clock) always succeeds and does not influence the result.
Any status other than 204 raises
`Exception(f"Erro ao enviar para Discord: {status}")`; 204 returns `True`. -/
def send_to_discord (message : String) (status : Nat) : Except PyErr Bool :=
  if status ≠ NO_CONTENT then
    Except.error (PyErr.exception ("Erro ao enviar para Discord: " ++ toString status))
  else
    Except.ok true

/-! ## `run` -/

/-- `str(e)` for the caught exception, used in the error notification. -/
def pyErrStr : PyErr → String
  | PyErr.keyError => "KeyError"
  | PyErr.valueError => "ValueError"
  | PyErr.exception msg => msg

/-- The oracles `run` interacts with: the events-API exchange, the current
cutoff, the generation service's reply, and the webhook's status for the main
message and for a possible error notification. -/
structure RunEnv where
  fetch : Except PyErr (Nat × List RawEvent)
  yesterday : PyDateTime
  llm : Option String
  notifyStatus : Nat
  errorNotifyStatus : Nat

/-- What a completed `run` did.  `run` has no exceptional outcome: every
constructor is a normal return. -/
inductive RunOutcome where
  | completed : String → RunOutcome
  | failedNotified : PyErr → RunOutcome
  | failedNotifyFailed : PyErr → RunOutcome
deriving DecidableEq

/-- The body of the `try` in `run` (lines 188–202): fetch, format, compose,
notify; the first uncaught exception aborts it. -/
def run_main (env : RunEnv) : Except PyErr String := do
  let events ← get_github_events env.fetch env.yesterday
  let formatted ← format_events events
  let daily_message := (generate_daily_message formatted env.llm).1
  let _ ← send_to_discord daily_message env.notifyStatus
  pure daily_message

/-- Lines 186–214: `run`.  The outer `except Exception` catches any error from
the main sequence, logs it (printing is out of scope here) and attempts to
send the error text to the same webhook; a failure of that send is itself
caught and only logged. -/
def run (env : RunEnv) : RunOutcome :=
  match run_main env with
  | Except.ok m => RunOutcome.completed m
  | Except.error e =>
    match send_to_discord ("Erro no GitHub Daily Reporter: " ++ pyErrStr e)
        env.errorNotifyStatus with
    | Except.ok _ => RunOutcome.failedNotified e
    | Except.error _ => RunOutcome.failedNotifyFailed e

/-! ## Derived predicates and comparison definitions -/

/-- Whether one loop iteration of `get_github_events` retains the event:
`created_at` present, parseable, and at or after the cutoff. -/
def passesFilter (yesterday : PyDateTime) (e : RawEvent) : Bool :=
  match e.created_at with
  | none => false
  | some ca =>
    match strptimeEventDate ca with
    | none => false
    | some d => yesterday.ble d

/-- `e.created_at` parsed, when present and well formed. -/
def instantOf (e : RawEvent) : Option PyDateTime :=
  e.created_at.bind strptimeEventDate

/-- Every adjacent pair of the list is in descending order of the parsed
`created_at` instants (pairs whose timestamps do not both parse put no
constraint). -/
def adjDescByInstant : List RawEvent → Bool
  | a :: b :: rest =>
    (match instantOf a, instantOf b with
     | some da, some db => db.ble da
     | _, _ => true) && adjDescByInstant (b :: rest)
  | _ => true

/-- The branch computation as the spec words it: "the ref string with any
leading `refs/heads/` prefix stripped", the rest of the string unchanged.
This definition follows the spec's words and exists only to be compared with
`pyReplaceRefsHeads`, the computation the source performs. -/
def specBranchOfRef (ref : String) : String :=
  if ("refs/heads/".toList).isPrefixOf ref.toList then ⟨ref.toList.drop 11⟩
  else ref

/-- The five event categories `format_events` branches on. -/
def knownEventTypes : List String :=
  ["PushEvent", "CreateEvent", "IssuesEvent", "PullRequestEvent", "DeleteEvent"]

def knownType (e : RawEvent) : Bool :=
  match e.type with
  | some t => knownEventTypes.contains t
  | none => false

/-- The sub-fields every branch of `format_events` reads unconditionally:
`type`, `repo.name`, `created_at`. -/
def commonPresent (e : RawEvent) : Bool :=
  e.type.isSome &&
    (match e.repo with
     | some r => r.name.isSome
     | none => false) &&
    e.created_at.isSome

/-- The payload sub-fields whose absence makes the category branch of
`format_events` raise `KeyError`: for a push, `commits` and `ref` and every
commit's `message` (the messages are only read when the commit list is
non-empty, vacuously covered); for a create, `ref_type` (`ref` is optional);
for an issue, `action`; for a pull request, `action` and
`pull_request.title`; for a delete, `ref_type` and `ref`. -/
def requiredPayloadPresent (e : RawEvent) : Bool :=
  match e.type with
  | none => true
  | some t =>
    if t = "PushEvent" then
      (e.payload.bind Payload.commits).isSome &&
        ((e.payload.bind Payload.commits).getD []).all
          (fun c => c.message.isSome) &&
        (e.payload.bind Payload.ref).isSome
    else if t = "CreateEvent" then
      (e.payload.bind Payload.ref_type).isSome
    else if t = "IssuesEvent" then
      (e.payload.bind Payload.action).isSome
    else if t = "PullRequestEvent" then
      (e.payload.bind Payload.action).isSome &&
        ((e.payload.bind Payload.pull_request).bind
          PullRequestData.title).isSome
    else if t = "DeleteEvent" then
      (e.payload.bind Payload.ref_type).isSome &&
        (e.payload.bind Payload.ref).isSome
    else true

/-! ## Concrete inputs used by counterexamples and witnesses -/

/-- A cutoff far in the past: both sample events below are after it. -/
def yEarly : PyDateTime := ⟨2020, 1, 1, 0, 0, 0, 0⟩

/-- An event created on 2024-01-01, written with a non-padded month, which
`strptime` accepts; as a string it sorts above every canonical 2024 timestamp
because `'1' > '0'` at the fifth character. -/
def eJan : RawEvent :=
  ⟨some "WatchEvent", some ⟨some "octo/a"⟩, some "2024-1-01T00:00:00Z",
    none, some true⟩

/-- An event created on 2024-09-05, canonical timestamp. -/
def eSep : RawEvent :=
  ⟨some "WatchEvent", some ⟨some "octo/b"⟩, some "2024-09-05T00:00:00Z",
    none, some true⟩

/-- An event of an unknown category with all common fields present. -/
def eUnknown : RawEvent :=
  ⟨some "WatchEvent", some ⟨some "octo/repo"⟩, some "2024-01-02T03:04:05Z",
    none, none⟩

/-- A push event whose payload lacks the required `commits` sub-field. -/
def ePushNoCommits : RawEvent :=
  ⟨some "PushEvent", some ⟨some "octo/repo"⟩, some "2024-01-02T03:04:05Z",
    some ⟨none, some "refs/heads/main", none, none, none⟩, some true⟩

/-- A push event whose ref contains the `refs/heads/` pattern twice. -/
def ePushDoubleRef : RawEvent :=
  ⟨some "PushEvent", some ⟨some "octo/repo"⟩, some "2024-01-02T03:04:05Z",
    some ⟨some [], some "refs/heads/refs/heads/main", none, none, none⟩,
    some true⟩

/-- A push event with one commit on `refs/heads/main`. -/
def ePushMain : RawEvent :=
  ⟨some "PushEvent", some ⟨some "octo/repo"⟩, some "2024-01-02T03:04:05Z",
    some ⟨some [⟨some "fix bug"⟩], some "refs/heads/main", none, none, none⟩,
    some true⟩

/-- A create event whose payload has `ref_type` but no optional `ref`. -/
def eCreateNoRef : RawEvent :=
  ⟨some "CreateEvent", some ⟨some "octo/repo"⟩, some "2024-01-02T03:04:05Z",
    some ⟨none, none, some "repository", none, none⟩, some false⟩

/-- An event with no `repo` field at all but a valid timestamp. -/
def eNoRepo : RawEvent :=
  ⟨some "PushEvent", none, some "2024-05-06T07:08:09Z", none, none⟩

/-- An event whose timestamp equals the cutoff below exactly. -/
def eBoundary : RawEvent :=
  ⟨some "WatchEvent", some ⟨some "octo/c"⟩, some "2024-05-06T07:08:09Z",
    none, none⟩

/-- A cutoff equal to `eBoundary`'s instant. -/
def yBoundary : PyDateTime := ⟨2024, 5, 6, 7, 8, 9, 0⟩

/-! ## Helper lemmas: the filter loop -/

/-- One loop iteration appends the event to `recent_events` exactly when it
passes the time filter; whatever the repo bookkeeping does, the retained list
is unchanged by it. -/
lemma processEvent_recent_events (y : PyDateTime) (st : FilterState)
    (e : RawEvent) :
    (processEvent y st e).recent_events =
      st.recent_events ++ (if passesFilter y e then [e] else []) := by
  unfold processEvent passesFilter
  cases h1 : e.created_at with
  | none => simp [h1]
  | some ca =>
    cases h2 : strptimeEventDate ca with
    | none => simp [h1, h2]
    | some d =>
      by_cases hb : y.ble d = true
      · simp only [h1, h2, hb, if_true]
        cases h3 : e.repo with
        | none => simp
        | some r =>
          cases h4 : r.name with
          | none => simp [h4]
          | some rn =>
            by_cases hp : e.public.getD true = true <;> simp [h4, hp]
      · simp [h1, h2, hb]

lemma foldl_processEvent_recent (y : PyDateTime) (l : List RawEvent)
    (st : FilterState) :
    (l.foldl (processEvent y) st).recent_events =
      st.recent_events ++ l.filter (fun e => passesFilter y e) := by
  induction l generalizing st with
  | nil => simp
  | cons e l ih =>
    rw [List.foldl_cons, ih, processEvent_recent_events, List.filter_cons]
    by_cases h : passesFilter y e = true <;> simp [h]

/-! ## Helper lemmas: the stable descending sort -/

lemma mem_insertDesc {a x : RawEvent} {l : List RawEvent} :
    a ∈ insertDesc x l ↔ a = x ∨ a ∈ l := by
  induction l with
  | nil => simp [insertDesc]
  | cons y ys ih =>
    unfold insertDesc
    by_cases h : sortDescLe x y = true
    · simp [h]
    · simp [h, ih]
      tauto

lemma mem_pySortByCreatedAtDesc {a : RawEvent} {l : List RawEvent} :
    a ∈ pySortByCreatedAtDesc l ↔ a ∈ l := by
  induction l with
  | nil => simp [pySortByCreatedAtDesc]
  | cons x xs ih =>
    simp [pySortByCreatedAtDesc, mem_insertDesc, ih]

/-- Totality of the code-point string order. -/
lemma charsLe_total (x : List Char) :
    ∀ y, charsLe x y = true ∨ charsLe y x = true := by
  induction x with
  | nil => intro y; left; rfl
  | cons a as ih =>
    intro y
    cases y with
    | nil => right; rfl
    | cons b bs =>
      unfold charsLe
      by_cases h1 : a.toNat < b.toNat
      · left; simp [h1]
      · by_cases h2 : b.toNat < a.toNat
        · right; simp [h1, h2]
        · simpa [h1, h2] using ih bs

lemma sortDescLe_total (a b : RawEvent) :
    sortDescLe a b = true ∨ sortDescLe b a = true := by
  unfold sortDescLe pyStrLe
  exact (charsLe_total _ _).symm

lemma head?_insertDesc (x : RawEvent) (l : List RawEvent) :
    (insertDesc x l).head? = some x ∨ (insertDesc x l).head? = l.head? := by
  cases l with
  | nil => left; rfl
  | cons y ys =>
    unfold insertDesc
    by_cases h : sortDescLe x y = true
    · left; simp [h]
    · right; simp [h]

lemma chain'_insertDesc (x : RawEvent) {l : List RawEvent}
    (h : List.Chain' (fun a b => sortDescLe a b = true) l) :
    List.Chain' (fun a b => sortDescLe a b = true) (insertDesc x l) := by
  induction l with
  | nil => simp [insertDesc]
  | cons y ys ih =>
    rw [List.chain'_cons'] at h
    obtain ⟨hy, hys⟩ := h
    unfold insertDesc
    by_cases hxy : sortDescLe x y = true
    · rw [if_pos hxy]
      rw [List.chain'_cons']
      refine ⟨?_, ?_⟩
      · intro z hz
        simp only [List.head?_cons, Option.mem_def, Option.some.injEq] at hz
        subst hz
        exact hxy
      · rw [List.chain'_cons']
        exact ⟨hy, hys⟩
    · rw [if_neg hxy]
      rw [List.chain'_cons']
      refine ⟨?_, ih hys⟩
      intro z hz
      rcases head?_insertDesc x ys with h1 | h1
      · rw [h1] at hz
        simp only [Option.mem_def, Option.some.injEq] at hz
        subst hz
        rcases sortDescLe_total x y with ht | ht
        · exact absurd ht hxy
        · exact ht
      · rw [h1] at hz
        exact hy z hz

lemma chain'_pySortByCreatedAtDesc (l : List RawEvent) :
    List.Chain' (fun a b => sortDescLe a b = true)
      (pySortByCreatedAtDesc l) := by
  induction l with
  | nil => simp [pySortByCreatedAtDesc]
  | cons x xs ih => exact chain'_insertDesc x ih

/-- Membership in the Filter's output is membership in the input plus passing
the time filter; the repo field plays no role. -/
lemma mem_get_github_events_filter {y : PyDateTime} {l : List RawEvent}
    {e : RawEvent} :
    e ∈ get_github_events_filter y l ↔ e ∈ l ∧ passesFilter y e = true := by
  unfold get_github_events_filter
  rw [mem_pySortByCreatedAtDesc, foldl_processEvent_recent]
  simp [List.mem_filter]

/-! ## Helper lemmas: `replace` versus leading-prefix stripping -/

/-- Bridge between the boolean `isPrefixOf` and the `<+:` relation. -/
lemma isPrefixOf_true_iff (l1 l2 : List Char) :
    l1.isPrefixOf l2 = true ↔ l1 <+: l2 :=
  List.isPrefixOf_iff_prefix

/-- When the pattern occurs nowhere, the scan copies the list unchanged. -/
lemma stripRefsHeadsAux_no_occurrence :
    ∀ (fuel : Nat) (s : List Char),
      ¬ ("refs/heads/".toList <:+: s) → stripRefsHeadsAux fuel s = s := by
  intro fuel
  induction fuel with
  | zero => intro s _; rfl
  | succ n ih =>
    intro s h
    cases s with
    | nil => rfl
    | cons c rest =>
      have hpre : ("refs/heads/".toList).isPrefixOf (c :: rest) = false := by
        rw [Bool.eq_false_iff]
        intro hp
        exact h ((isPrefixOf_true_iff _ _ |>.mp hp).isInfix)
      unfold stripRefsHeadsAux
      rw [hpre]
      simp only [Bool.false_eq_true, if_false, List.cons.injEq, true_and]
      exact ih rest (fun hinf => h (List.infix_cons hinf))

/-- The defining equation of the scan on a non-empty list with fuel left. -/
lemma stripRefsHeadsAux_succ_cons (fuel : Nat) (c : Char) (rest : List Char) :
    stripRefsHeadsAux (fuel + 1) (c :: rest) =
      if ("refs/heads/".toList).isPrefixOf (c :: rest) then
        stripRefsHeadsAux fuel ((c :: rest).drop 11)
      else c :: stripRefsHeadsAux fuel rest := rfl

/-- One scan step at a position where the pattern occurs. -/
lemma stripRefsHeadsAux_step (fuel : Nat) (s : List Char)
    (hpre : ("refs/heads/".toList).isPrefixOf s = true) (hne : s ≠ []) :
    stripRefsHeadsAux (fuel + 1) s = stripRefsHeadsAux fuel (s.drop 11) := by
  cases s with
  | nil => exact absurd rfl hne
  | cons c rest =>
    rw [stripRefsHeadsAux_succ_cons, if_pos hpre]

/-- Where the stripped-of-its-leading-prefix string contains no further
occurrence of `refs/heads/`, Python's `replace` and the spec's leading-prefix
strip agree. -/
lemma pyReplace_eq_spec_of_no_tail_occurrence (ref : String)
    (h : ¬ ("refs/heads/".toList <:+: (specBranchOfRef ref).toList)) :
    pyReplaceRefsHeads ref = specBranchOfRef ref := by
  unfold specBranchOfRef at h ⊢
  unfold pyReplaceRefsHeads
  by_cases hp : ("refs/heads/".toList).isPrefixOf ref.toList = true
  · rw [if_pos hp] at h ⊢
    have hdrop : (⟨ref.toList.drop 11⟩ : String).toList = ref.toList.drop 11 := rfl
    rw [hdrop] at h
    obtain ⟨rest, hrest⟩ := (isPrefixOf_true_iff _ _).mp hp
    have h11 : ("refs/heads/".toList).length = 11 := rfl
    have hlen : ref.toList.length = (rest.length + 10) + 1 := by
      rw [← hrest, List.length_append]
      omega
    have hdrop11 : ref.toList.drop 11 = rest := by
      rw [← hrest, ← h11, List.drop_left]
    have hne : ref.toList ≠ [] := by
      intro hnil
      rw [hnil] at hrest
      exact absurd (List.append_eq_nil.mp hrest).1 (by decide)
    rw [hlen, stripRefsHeadsAux_step _ _ hp hne, hdrop11]
    rw [hdrop11] at h
    rw [stripRefsHeadsAux_no_occurrence _ _ h]
  · rw [if_neg hp] at h ⊢
    have := stripRefsHeadsAux_no_occurrence ref.toList.length ref.toList h
    rw [this]
    rfl

/-! ## Helper lemmas: the formatter -/

/-- The commit-message comprehension succeeds when every commit carries a
message. -/
lemma commitMessages_ok (cs : List Commit)
    (h : cs.all (fun c => c.message.isSome) = true) :
    ∃ ms, commitMessages cs = Except.ok ms := by
  induction cs with
  | nil => exact ⟨[], rfl⟩
  | cons c cs ih =>
    rw [List.all_cons, Bool.and_eq_true] at h
    obtain ⟨m, hm⟩ := Option.isSome_iff_exists.mp h.1
    obtain ⟨ms, hms⟩ := ih h.2
    refine ⟨m :: ms, ?_⟩
    unfold commitMessages
    rw [hm, hms]
    rfl

/-- Destructuring of `commonPresent`. -/
lemma commonPresent_elim (e : RawEvent) (h : commonPresent e = true) :
    ∃ r0 rn ca, e.repo = some r0 ∧ r0.name = some rn ∧
      e.created_at = some ca := by
  unfold commonPresent at h
  cases hr : e.repo with
  | none => rw [hr] at h; simp at h
  | some r0 =>
    rw [hr] at h
    simp only [Bool.and_eq_true] at h
    obtain ⟨⟨_, h2⟩, h3⟩ := h
    obtain ⟨rn, hn⟩ := Option.isSome_iff_exists.mp h2
    obtain ⟨ca, hca⟩ := Option.isSome_iff_exists.mp h3
    exact ⟨r0, rn, ca, rfl, hn, hca⟩

/-! ## Claims -/

/-- Claim C2: for every raw event with a parseable `created_at`, the Filter
includes it in its result exactly when its `created_at` instant is at or after
the cutoff; the boundary instant itself is included (`>=` in the source). -/
theorem filter_includes_iff_at_or_after_cutoff (y : PyDateTime)
    (events : List RawEvent) (e : RawEvent) (ca : String) (d : PyDateTime)
    (he : e ∈ events) (hca : e.created_at = some ca)
    (hd : strptimeEventDate ca = some d) :
    e ∈ get_github_events_filter y events ↔ y.ble d = true := by
  rw [mem_get_github_events_filter]
  have hp : passesFilter y e = y.ble d := by
    simp [passesFilter, hca, hd]
  rw [hp]
  simp [he]

/-- Witness for C2 at the boundary: an event whose instant equals the cutoff
exactly is included. -/
theorem filter_includes_iff_at_or_after_cutoff_witness :
    eBoundary ∈ get_github_events_filter yBoundary [eBoundary] :=
  (filter_includes_iff_at_or_after_cutoff yBoundary [eBoundary] eBoundary
    "2024-05-06T07:08:09Z" ⟨2024, 5, 6, 7, 8, 9, 0⟩
    (List.mem_singleton.mpr rfl) rfl rfl).mpr rfl

/-- Claim C5, counterexample: the source sorts by the raw `created_at`
strings, and `strptime` also accepts non-padded fields, so the output is not
always descending by instant: with the parseable timestamps
`2024-1-01T00:00:00Z` (January 1) and `2024-09-05T00:00:00Z` (September 5),
both after the cutoff, the string sort puts January before September. -/
theorem filter_output_not_sorted_by_instant :
    adjDescByInstant (get_github_events_filter yEarly [eSep, eJan]) = false := by
  rfl

/-- Claim C5 (amended): every pair of adjacent elements of the Filter's output
is in descending order of the `created_at` strings, compared lexicographically
by code point as Python compares strings. -/
theorem filter_output_sorted_desc_by_string (y : PyDateTime)
    (events : List RawEvent) :
    List.Chain' (fun a b => pyStrLe (eventSortKey b) (eventSortKey a) = true)
      (get_github_events_filter y events) := by
  unfold get_github_events_filter
  exact chain'_pySortByCreatedAtDesc _

/-- Claim C10: an event with a parseable `created_at` at or after the cutoff
is in the Filter's output no matter what its `repo` field holds (missing repo
or missing name only skips the debug bookkeeping, after the append); and an
event of the input is dropped exactly when its timestamp is missing,
unparseable, or before the cutoff. -/
theorem filter_membership_ignores_repo_field (y : PyDateTime)
    (events : List RawEvent) (e : RawEvent) (he : e ∈ events) :
    e ∈ get_github_events_filter y events ↔
      ∃ ca d, e.created_at = some ca ∧ strptimeEventDate ca = some d ∧
        y.ble d = true := by
  rw [mem_get_github_events_filter]
  have : passesFilter y e = true ↔
      ∃ ca d, e.created_at = some ca ∧ strptimeEventDate ca = some d ∧
        y.ble d = true := by
    unfold passesFilter
    cases h1 : e.created_at with
    | none => simp
    | some ca =>
      cases h2 : strptimeEventDate ca with
      | none => simp [h2]
      | some d => simp [h2]
  rw [this]
  simp [he]

/-- Witness for C10: an event with no `repo` field at all is retained. -/
theorem filter_membership_ignores_repo_field_witness :
    eNoRepo ∈ get_github_events_filter yEarly [eNoRepo] :=
  (filter_membership_ignores_repo_field yEarly [eNoRepo] eNoRepo
    (List.mem_singleton.mpr rfl)).mpr
    ⟨"2024-05-06T07:08:09Z", ⟨2024, 5, 6, 7, 8, 9, 0⟩, rfl, rfl, rfl⟩

/-- Claim C6: on the empty normalized-event list the Composer returns the
fixed quiet-day placeholder and performs zero generation-service calls,
whatever the service would have answered. -/
theorem generate_empty_returns_placeholder_no_call (llm : Option String) :
    generate_daily_message [] llm = (quietDayMessage, 0) := rfl

/-- Claim C7: on a non-empty list, when the generation call fails the Composer
returns the deterministic fallback string (making one call, propagating no
error), and that string contains the decimal event count as a substring. -/
theorem generate_failure_returns_fallback_with_count (events : List Record)
    (hne : events ≠ []) :
    generate_daily_message events none = (fallbackMessage events.length, 1) ∧
      (toString events.length).toList <:+: (fallbackMessage events.length).toList := by
  constructor
  · have h : events.isEmpty = false := by
      cases events with
      | nil => exact absurd rfl hne
      | cons a l => rfl
    simp [generate_daily_message, h, openaiCall]
  · refine ⟨("Trabalhando em projetos interessantes hoje! ").toList,
      (" atividades no GitHub").toList, ?_⟩
    simp [fallbackMessage, String.toList]

/-- Witness for C7 on a one-element list. -/
theorem generate_failure_returns_fallback_with_count_witness :
    generate_daily_message [[]] none = (fallbackMessage 1, 1) ∧
      (toString (1 : Nat)).toList <:+: (fallbackMessage 1).toList :=
  generate_failure_returns_fallback_with_count [[]] (by simp)

/-- Claim C8: the Notifier succeeds exactly on the no-content status 204; any
other status raises an exception whose message carries the observed status
code, and on 204 it does not fail. -/
theorem send_to_discord_ok_iff_no_content (message : String) (status : Nat) :
    ((send_to_discord message status).isOk = true ↔ status = NO_CONTENT) ∧
      (status ≠ NO_CONTENT →
        send_to_discord message status = Except.error (PyErr.exception
          ("Erro ao enviar para Discord: " ++ toString status)) ∧
        (toString status).toList <:+:
          ("Erro ao enviar para Discord: " ++ toString status).toList) := by
  constructor
  · by_cases h : status = NO_CONTENT <;> simp [send_to_discord, h, Except.isOk, Except.toBool]
  · intro h
    refine ⟨by simp [send_to_discord, h], ?_⟩
    refine ⟨("Erro ao enviar para Discord: ").toList, [], ?_⟩
    simp [String.toList]

/-- Witness for C8 at status 500. -/
theorem send_to_discord_ok_iff_no_content_witness :
    send_to_discord "hello" 500 =
      Except.error (PyErr.exception "Erro ao enviar para Discord: 500") :=
  ((send_to_discord_ok_iff_no_content "hello" 500).2 (by decide)).1

/-- Claim C9: `run` always returns a normal outcome, never an exception: on a
successful main sequence it completes with the composed message; on any error
from fetch, format or notify it attempts exactly one error notification to the
webhook, whose own failure (any status other than 204) still yields a normal
return. -/
theorem run_never_raises_best_effort_notify (env : RunEnv) :
    (∃ m, run_main env = Except.ok m ∧ run env = RunOutcome.completed m) ∨
    (∃ e, run_main env = Except.error e ∧
      run env = (if env.errorNotifyStatus = NO_CONTENT
                 then RunOutcome.failedNotified e
                 else RunOutcome.failedNotifyFailed e)) := by
  cases h : run_main env with
  | ok m =>
    left
    exact ⟨m, rfl, by simp [run, h]⟩
  | error e =>
    right
    refine ⟨e, rfl, ?_⟩
    by_cases hs : env.errorNotifyStatus = NO_CONTENT <;>
      simp [run, h, send_to_discord, hs]

/-- Claim C3, counterexample: the Formatter's record for an unknown category
also carries `is_private`, so its key set is not exactly
`type`, `repo`, `created_at`. -/
theorem format_unknown_type_has_extra_field :
    format_events [eUnknown] = Except.ok
      [[("type", Value.str "WatchEvent"), ("repo", Value.str "octo/repo"),
        ("created_at", Value.str "2024-01-02T03:04:05Z"),
        ("is_private", Value.bool false)]] ∧
    [("type", Value.str "WatchEvent"), ("repo", Value.str "octo/repo"),
      ("created_at", Value.str "2024-01-02T03:04:05Z"),
      ("is_private", Value.bool false)].map Prod.fst ≠
        ["type", "repo", "created_at"] :=
  ⟨rfl, by decide⟩

/-- Claim C3 (amended): for an unknown category with the common sub-fields
present, the output record has exactly the four common keys
`type`, `repo`, `created_at`, `is_private` and no others. -/
theorem format_event_unknown_type_common_fields (e : RawEvent) (t : String)
    (ht : e.type = some t) (hu : knownEventTypes.contains t = false)
    (hc : commonPresent e = true) :
    ∃ r, format_event e = Except.ok r ∧
      r.map Prod.fst = ["type", "repo", "created_at", "is_private"] := by
  obtain ⟨r0, rn, ca, hr, hn, hca⟩ := commonPresent_elim e hc
  have hne : ¬ t ∈ knownEventTypes := by
    intro hm
    have hcontains : knownEventTypes.contains t = true := List.elem_iff.mpr hm
    rw [hu] at hcontains
    exact Bool.false_ne_true hcontains
  rw [knownEventTypes] at hne
  simp only [List.mem_cons, List.not_mem_nil, or_false, not_or] at hne
  obtain ⟨h1, h2, h3, h4, h5⟩ := hne
  refine ⟨[("type", Value.str t), ("repo", Value.str rn),
    ("created_at", Value.str ca),
    ("is_private", Value.bool (e.public.getD true = false))], ?_, rfl⟩
  simp [format_event, dictGet, Bind.bind, Except.bind, Pure.pure, Except.pure, ht, hr, hn, hca, h1, h2, h3, h4, h5]

/-- Witness for C3 at a concrete `WatchEvent`. -/
theorem format_event_unknown_type_common_fields_witness :
    ∃ r, format_event eUnknown = Except.ok r ∧
      r.map Prod.fst = ["type", "repo", "created_at", "is_private"] :=
  format_event_unknown_type_common_fields eUnknown "WatchEvent" rfl rfl rfl

/-- Claim C1, counterexample: for a known category (`PushEvent`) whose payload
lacks a required sub-field (`commits`), the Formatter raises `KeyError`
instead of returning a record with the field omitted. -/
theorem format_events_push_missing_commits_raises :
    knownType ePushNoCommits = true ∧
      format_events [ePushNoCommits] = Except.error PyErr.keyError :=
  ⟨rfl, rfl⟩

/-- Claim C1 (amended): the Formatter returns a normalized record without
raising only when the category's required payload sub-fields are present
(push: `commits`, `ref` and each commit's `message`; create: `ref_type`;
issue: `action`; pull request: `action` and `pull_request.title`; delete:
`ref_type` and `ref`); a missing required sub-field raises `KeyError`.  Under
that proviso the record omits only the genuinely optional sub-field, the
create event's `ref`, whose key is present in the output exactly when it is
present in the payload. -/
theorem format_event_total_on_required_fields (e : RawEvent)
    (hk : knownType e = true) (hc : commonPresent e = true)
    (hp : requiredPayloadPresent e = true) :
    (format_event e).isOk = true ∧
      (e.type = some "CreateEvent" → ∀ r, format_event e = Except.ok r →
        (List.lookup "ref" r).isSome = (e.payload.bind Payload.ref).isSome) := by
  obtain ⟨r0, rn, ca, hr, hn, hca⟩ := commonPresent_elim e hc
  unfold knownType at hk
  unfold requiredPayloadPresent at hp
  cases ht : e.type with
  | none => rw [ht] at hk; simp at hk
  | some t =>
    rw [ht] at hk hp
    have hmem : t ∈ knownEventTypes := List.elem_iff.mp hk
    simp only [knownEventTypes, List.mem_cons, List.not_mem_nil, or_false]
      at hmem
    rcases hmem with rfl | rfl | rfl | rfl | rfl
    · -- PushEvent
      simp only [reduceIte, Bool.and_eq_true] at hp
      obtain ⟨⟨h1, h2⟩, h3⟩ := hp
      obtain ⟨cs, hcsbind⟩ := Option.isSome_iff_exists.mp h1
      obtain ⟨p, hpay, hcs⟩ := Option.bind_eq_some.mp hcsbind
      rw [hcsbind, Option.getD_some] at h2
      obtain ⟨ref, hrefbind⟩ := Option.isSome_iff_exists.mp h3
      obtain ⟨p2, hpay2, href⟩ := Option.bind_eq_some.mp hrefbind
      rw [hpay] at hpay2
      obtain rfl : p2 = p := (Option.some.inj hpay2).symm
      obtain ⟨ms, hms⟩ := commitMessages_ok cs h2
      refine ⟨?_, fun hct => absurd hct (by decide)⟩
      cases cs with
      | nil =>
        simp [format_event, dictGet, Bind.bind, Except.bind, Pure.pure,
          Except.pure, ht, hr, hn, hca, hpay, hcs, href, Except.isOk,
          Except.toBool]
      | cons c0 cs0 =>
        simp [format_event, dictGet, Bind.bind, Except.bind, Pure.pure,
          Except.pure, ht, hr, hn, hca, hpay, hcs, href, hms, Except.isOk,
          Except.toBool]
    · -- CreateEvent
      simp only [String.reduceEq, reduceIte] at hp
      obtain ⟨rt, hrtbind⟩ := Option.isSome_iff_exists.mp hp
      obtain ⟨p, hpay, hrt⟩ := Option.bind_eq_some.mp hrtbind
      rw [hpay]
      simp only [Option.some_bind]
      cases href : p.ref with
      | none =>
        have hfe : format_event e = Except.ok
            [("type", Value.str "CreateEvent"), ("repo", Value.str rn),
             ("created_at", Value.str ca),
             ("is_private", Value.bool (e.public.getD true = false)),
             ("ref_type", Value.str rt)] := by
          simp [format_event, dictGet, Bind.bind, Except.bind, Pure.pure,
            Except.pure, ht, hr, hn, hca, hpay, hrt, href]
        refine ⟨by simp [hfe, Except.isOk, Except.toBool], ?_⟩
        intro _ r hrr
        rw [hfe] at hrr
        obtain rfl := Except.ok.inj hrr
        simp [List.lookup]
      | some refv =>
        have hfe : format_event e = Except.ok
            [("type", Value.str "CreateEvent"), ("repo", Value.str rn),
             ("created_at", Value.str ca),
             ("is_private", Value.bool (e.public.getD true = false)),
             ("ref_type", Value.str rt), ("ref", Value.str refv)] := by
          simp [format_event, dictGet, Bind.bind, Except.bind, Pure.pure,
            Except.pure, ht, hr, hn, hca, hpay, hrt, href]
        refine ⟨by simp [hfe, Except.isOk, Except.toBool], ?_⟩
        intro _ r hrr
        rw [hfe] at hrr
        obtain rfl := Except.ok.inj hrr
        simp [List.lookup]
    · -- IssuesEvent
      simp only [String.reduceEq, reduceIte] at hp
      obtain ⟨ac, hacbind⟩ := Option.isSome_iff_exists.mp hp
      obtain ⟨p, hpay, hac⟩ := Option.bind_eq_some.mp hacbind
      refine ⟨?_, fun hct => absurd hct (by decide)⟩
      simp [format_event, dictGet, Bind.bind, Except.bind, Pure.pure,
        Except.pure, ht, hr, hn, hca, hpay, hac, Except.isOk, Except.toBool]
    · -- PullRequestEvent
      simp only [String.reduceEq, reduceIte, Bool.and_eq_true] at hp
      obtain ⟨h1, h2⟩ := hp
      obtain ⟨ac, hacbind⟩ := Option.isSome_iff_exists.mp h1
      obtain ⟨p, hpay, hac⟩ := Option.bind_eq_some.mp hacbind
      obtain ⟨ti, htibind⟩ := Option.isSome_iff_exists.mp h2
      obtain ⟨pr0, hprbind, hti⟩ := Option.bind_eq_some.mp htibind
      obtain ⟨p2, hpay2, hpr⟩ := Option.bind_eq_some.mp hprbind
      rw [hpay] at hpay2
      obtain rfl : p2 = p := (Option.some.inj hpay2).symm
      refine ⟨?_, fun hct => absurd hct (by decide)⟩
      simp [format_event, dictGet, Bind.bind, Except.bind, Pure.pure,
        Except.pure, ht, hr, hn, hca, hpay, hac, hpr, hti, Except.isOk,
        Except.toBool]
    · -- DeleteEvent
      simp only [String.reduceEq, reduceIte, Bool.and_eq_true] at hp
      obtain ⟨h1, h2⟩ := hp
      obtain ⟨rt, hrtbind⟩ := Option.isSome_iff_exists.mp h1
      obtain ⟨p, hpay, hrt⟩ := Option.bind_eq_some.mp hrtbind
      obtain ⟨refv, hrefbind⟩ := Option.isSome_iff_exists.mp h2
      obtain ⟨p2, hpay2, href⟩ := Option.bind_eq_some.mp hrefbind
      rw [hpay] at hpay2
      obtain rfl : p2 = p := (Option.some.inj hpay2).symm
      refine ⟨?_, fun hct => absurd hct (by decide)⟩
      simp [format_event, dictGet, Bind.bind, Except.bind, Pure.pure,
        Except.pure, ht, hr, hn, hca, hpay, hrt, href, Except.isOk,
        Except.toBool]


/-- Witness for C1 at a create event without the optional `ref`: the call
succeeds and the output omits the `ref` key. -/
theorem format_event_total_on_required_fields_witness :
    (format_event eCreateNoRef).isOk = true ∧
      (List.lookup "ref" [("type", Value.str "CreateEvent"),
        ("repo", Value.str "octo/repo"),
        ("created_at", Value.str "2024-01-02T03:04:05Z"),
        ("is_private", Value.bool true),
        ("ref_type", Value.str "repository")]).isSome =
        (eCreateNoRef.payload.bind Payload.ref).isSome := by
  have h := format_event_total_on_required_fields eCreateNoRef rfl rfl rfl
  exact ⟨h.1, h.2 rfl _ rfl⟩

/-- Claim C4, counterexample: `replace` removes every occurrence of
`refs/heads/`, not only a leading prefix: on the ref
`refs/heads/refs/heads/main` the Formatter stores branch `main`, while
stripping only the leading prefix would leave `refs/heads/main`. -/
theorem push_branch_not_leading_strip_only :
    format_events [ePushDoubleRef] = Except.ok
      [[("type", Value.str "PushEvent"), ("repo", Value.str "octo/repo"),
        ("created_at", Value.str "2024-01-02T03:04:05Z"),
        ("is_private", Value.bool false), ("commits", Value.nat 0),
        ("branch", Value.str "main")]] ∧
    specBranchOfRef "refs/heads/refs/heads/main" = "refs/heads/main" ∧
    ("main" : String) ≠ "refs/heads/main" :=
  ⟨rfl, by decide, by decide⟩

/-- Claim C4 (amended): for a push event the branch field is the ref string
with every leftmost, non-overlapping occurrence of `refs/heads/` removed (the
semantics of `str.replace`), not only a leading one; whenever the string left
by stripping the leading prefix contains no further occurrence — in
particular for every ordinary ref — this coincides with the spec's
leading-prefix strip. -/
theorem push_branch_removes_all_occurrences (e : RawEvent) (p : Payload)
    (cs : List Commit) (ref : String)
    (ht : e.type = some "PushEvent") (hc : commonPresent e = true)
    (hpay : e.payload = some p) (hcs : p.commits = some cs)
    (hmsg : cs.all (fun c => c.message.isSome) = true)
    (href : p.ref = some ref) :
    (format_event e).isOk = true ∧
      (∀ r, format_event e = Except.ok r →
        List.lookup "branch" r = some (Value.str (pyReplaceRefsHeads ref))) ∧
      (¬ ("refs/heads/".toList <:+: (specBranchOfRef ref).toList) →
        pyReplaceRefsHeads ref = specBranchOfRef ref) := by
  obtain ⟨r0, rn, ca, hr, hn, hca⟩ := commonPresent_elim e hc
  refine ⟨?_, ?_, pyReplace_eq_spec_of_no_tail_occurrence ref⟩
  · obtain ⟨ms, hms⟩ := commitMessages_ok cs hmsg
    cases cs with
    | nil =>
      simp [format_event, dictGet, Bind.bind, Except.bind, Pure.pure,
        Except.pure, ht, hr, hn, hca, hpay, hcs, href, Except.isOk,
        Except.toBool]
    | cons c0 cs0 =>
      simp [format_event, dictGet, Bind.bind, Except.bind, Pure.pure,
        Except.pure, ht, hr, hn, hca, hpay, hcs, href, hms, Except.isOk,
        Except.toBool]
  · obtain ⟨ms, hms⟩ := commitMessages_ok cs hmsg
    intro r hrr
    cases cs with
    | nil =>
      have hfe : format_event e = Except.ok
          [("type", Value.str "PushEvent"), ("repo", Value.str rn),
           ("created_at", Value.str ca),
           ("is_private", Value.bool (e.public.getD true = false)),
           ("commits", Value.nat 0),
           ("branch", Value.str (pyReplaceRefsHeads ref))] := by
        simp [format_event, dictGet, Bind.bind, Except.bind, Pure.pure,
          Except.pure, ht, hr, hn, hca, hpay, hcs, href]
      rw [hfe] at hrr
      obtain rfl := Except.ok.inj hrr
      simp [List.lookup]
    | cons c0 cs0 =>
      have hfe : format_event e = Except.ok
          [("type", Value.str "PushEvent"), ("repo", Value.str rn),
           ("created_at", Value.str ca),
           ("is_private", Value.bool (e.public.getD true = false)),
           ("commits", Value.nat (cs0.length + 1)),
           ("branch", Value.str (pyReplaceRefsHeads ref)),
           ("commit_messages", Value.strList ms)] := by
        simp [format_event, dictGet, Bind.bind, Except.bind, Pure.pure,
          Except.pure, ht, hr, hn, hca, hpay, hcs, href, hms]
      rw [hfe] at hrr
      obtain rfl := Except.ok.inj hrr
      simp [List.lookup]

/-- Witness for C4 at a one-commit push on `refs/heads/main`: the Formatter
succeeds and, since the prefix occurs only at the front, the computed branch
agrees with the spec's leading-prefix strip. -/
theorem push_branch_removes_all_occurrences_witness :
    (format_event ePushMain).isOk = true ∧
      pyReplaceRefsHeads "refs/heads/main" = specBranchOfRef "refs/heads/main" := by
  have h := push_branch_removes_all_occurrences ePushMain
    ⟨some [⟨some "fix bug"⟩], some "refs/heads/main", none, none, none⟩
    [⟨some "fix bug"⟩] "refs/heads/main" rfl rfl rfl rfl rfl rfl
  exact ⟨h.1, h.2.2 (by decide)⟩

end GithubDaily
